import Mathlib

/-!
# Shallow embedding of the lang3 lexical front-end

Each definition below translates one item of the Rust source
(`src/iterator.rs`, `src/source.rs`, `src/token.rs`, `src/util.rs`,
`src/lexer.rs`).  Source strings are modelled as `List Char` of single-byte
code units (the Rust cursor reads `text.as_bytes()[cur] as char`).  The
cursor's byte index `cur` is represented by the unconsumed suffix
`rest = text[cur..]`; the full text is kept alongside because error
locations copy it.  Definitions named after a Rust item follow that item's
code; definitions whose doc comment starts with `Modelled from the spec:`
embed routines that the source leaves as `TODO` placeholders.
-/

deriving instance DecidableEq for Except

namespace Lang3

/-- `TokenKind` from token.rs lines 18-90: the closed variant set. -/
inductive TokenKind where
  | Invalid
  | Super | Class | This | While | If | Else | For | Foreach | In
  | Continue | Break | True | False | Null | Import | Include | As
  | Fn | Return | Let | Const | Print
  | FatArrow | ThinArrow | Equal | QuestionmarkQuestionmark | Questionmark
  | Colon | Plus | Minus | Slash | Star | StarStar | Percent
  | Ampersand | AmpersandAmpersand | Caret | Pipe | PipePipe | Bang
  | EqualEqual | BangEqual | GreaterEqual | LessEqual | Greater | Less
  | LessLess | GreaterGreater | Tilde | PlusPlus | MinusMinus
  | MinusEqual | PlusEqual | StarEqual | SlashEqual
  | Dot | DotDot | Comma | Semicolon
  | LeftParenthesis | RightParenthesis | LeftBrace | RightBrace
  | LeftBracket | RightBracket
  | Identifier | String | Char | Integer | Float
  deriving DecidableEq, Repr

/-- `Token` from token.rs lines 7-14 (`lexeme: String` as `List Char`). -/
structure Token where
  kind : TokenKind
  lexeme : List Char
  line : Nat
  startChar : Nat
  endChar : Nat
  deriving DecidableEq, Repr

/-- `SourceCodeLocation` from source.rs lines 1-7. -/
structure SourceCodeLocation where
  text : List Char
  line : Nat
  startChar : Nat
  endChar : Nat
  deriving DecidableEq, Repr

/-- `LexerError` from lexer.rs lines 27-31. -/
structure LexerError where
  msg : String
  location : Option SourceCodeLocation
  deriving DecidableEq, Repr

/-- `LexerError::from_indices`, lexer.rs lines 34-39. -/
def LexerError.from_indices (msg : String) (text : List Char)
    (line startChar endChar : Nat) : LexerError :=
  { msg := msg, location := some ⟨text, line, startChar, endChar⟩ }

/-- `LexerError::from_location`, lexer.rs lines 41-46. -/
def LexerError.from_location (msg : String) (location : SourceCodeLocation) :
    LexerError :=
  { msg := msg, location := some location }

/-- `LexerError::invalid_escape_sequence`, lexer.rs lines 48-53. -/
def LexerError.invalid_escape_sequence (location : SourceCodeLocation) :
    LexerError :=
  { msg := "Invalid escape sequence", location := some location }

/-- `LexerState` from lexer.rs lines 14-19. -/
inductive LexerState where
  | Ready
  | Lexing
  | Done
  deriving DecidableEq, Repr

/-- `StringIterator` from iterator.rs lines 9-14.  `rest` models the
suffix `text[cur..]`; `curChar`/`curLine` are the 1-based column and line
of the next unconsumed position (`cur_char`, `cur_line`). -/
structure StringIterator where
  text : List Char
  rest : List Char
  curChar : Nat
  curLine : Nat
  deriving DecidableEq, Repr

/-- `StringIterator::new`, iterator.rs lines 17-19. -/
def StringIterator.new (s : List Char) : StringIterator :=
  { text := s, rest := s, curChar := 1, curLine := 1 }

/-- `PeekableIterator::peek` for `StringIterator`, iterator.rs lines 37-45:
the byte at `cur`, or `None` past the end. -/
def StringIterator.peek (it : StringIterator) : Option Char :=
  it.rest.head?

/-- `PeekableIterator::offset`, iterator.rs lines 47-55: the byte at
`cur + offset`, or `None` past the end. -/
def StringIterator.offset (it : StringIterator) (n : Nat) : Option Char :=
  it.rest.get? n

/-- `Iterator::next` for `StringIterator`, iterator.rs lines 61-80:
consumes one code unit; on `'\n'` increments the line and resets the
column to 1, otherwise increments the column. -/
def StringIterator.next (it : StringIterator) : Option Char × StringIterator :=
  match it.rest with
  | [] => (none, it)
  | c :: r =>
      (some c,
        { it with
          rest := r
          curLine := if c = '\n' then it.curLine + 1 else it.curLine
          curChar := if c = '\n' then 1 else it.curChar + 1 })

/-- `Lexer::_skip`, lexer.rs lines 451-455: `n` calls to `iter.next()`. -/
def StringIterator.skipN (it : StringIterator) : Nat → StringIterator
  | 0 => it
  | n + 1 => (it.next).2.skipN n

/-- `resolve_escape_sequence` from util.rs lines 54-69. -/
def resolve_escape_sequence (c : Char) : Option Char :=
  if c = '0' then some '\x00'
  else if c = 'a' then some '\x07'
  else if c = 'b' then some '\x08'
  else if c = 'f' then some '\x0C'
  else if c = 'n' then some '\n'
  else if c = 't' then some '\t'
  else if c = 'r' then some '\r'
  else if c = 'v' then some '\x0B'
  else if c = '\\' then some '\\'
  else if c = '\'' then some '\''
  else if c = '\"' then some '\"'
  else none

/-- Rust `char::is_whitespace` restricted to the single-byte code units the
cursor can yield (iterator.rs reads bytes): the `White_Space` code points
below `0x100`. -/
def rustIsWhitespace (c : Char) : Bool :=
  c = ' ' || c = '\t' || c = '\n' || c = '\x0B' || c = '\x0C' || c = '\r'
    || c = '\x85' || c = '\xA0'

/-- `Lexer` from lexer.rs lines 8-11. -/
structure Lexer where
  iter : StringIterator
  state : LexerState
  deriving DecidableEq, Repr

/-- `Lexer::new`, lexer.rs lines 71-76 (`LexerState::default()` is `Ready`,
lexer.rs lines 21-25). -/
def Lexer.new (text : List Char) : Lexer :=
  { iter := StringIterator.new text, state := .Ready }

/-- `Lexer::get_location`, lexer.rs lines 465-472. -/
def Lexer.get_location (lx : Lexer) : SourceCodeLocation :=
  { text := lx.iter.text
    line := lx.iter.curLine
    startChar := lx.iter.curChar
    endChar := lx.iter.curChar }

/-- The loop body of `Lexer::skip_whitespace`, lexer.rs lines 132-140:
peek, stop at the first non-whitespace character, else consume.  Takes and
returns `(rest, line, column)` of the iterator. -/
def skipWsRest : List Char → Nat → Nat → List Char × Nat × Nat
  | [], l, k => ([], l, k)
  | c :: r, l, k =>
      if rustIsWhitespace c then
        skipWsRest r (if c = '\n' then l + 1 else l) (if c = '\n' then 1 else k + 1)
      else (c :: r, l, k)

/-- `Lexer::skip_whitespace`, lexer.rs lines 132-140. -/
def Lexer.skip_whitespace (lx : Lexer) : Lexer :=
  let t := skipWsRest lx.iter.rest lx.iter.curLine lx.iter.curChar
  { lx with iter := { lx.iter with rest := t.1, curLine := t.2.1, curChar := t.2.2 } }

/-- `Lexer::is_start_of_char`, lexer.rs lines 142-144. -/
def Lexer.is_start_of_char (_lx : Lexer) (c : Char) : Bool :=
  c == '\''

/-- `Lexer::is_start_of_string`, lexer.rs lines 190-192. -/
def Lexer.is_start_of_string (_lx : Lexer) (c : Char) : Bool :=
  c == '\"'

/-- `Lexer::is_start_of_line_comment`, lexer.rs lines 244-246: note the
`offset(1)` lookahead is taken at the current cursor, whatever `c` is. -/
def Lexer.is_start_of_line_comment (lx : Lexer) (c : Char) : Bool :=
  c == '/' && lx.iter.offset 1 == some '/'

/-- `Lexer::is_start_of_block_comment`, lexer.rs lines 257-259. -/
def Lexer.is_start_of_block_comment (lx : Lexer) (c : Char) : Bool :=
  c == '/' && lx.iter.offset 1 == some '*'

/-- `Lexer::is_end_of_block_comment`, lexer.rs lines 261-263. -/
def Lexer.is_end_of_block_comment (lx : Lexer) (c : Char) : Bool :=
  c == '*' && lx.iter.offset 1 == some '/'

/-- Outcome of the `while let Some(c) = self._next()` loop of
`Lexer::parse_string`, lexer.rs lines 203-224. -/
inductive StrScan where
  /-- The unescaped closing quote was found: accumulated string, remaining
  input, line, column. -/
  | closed (s : List Char) (rest : List Char) (line col : Nat)
  /-- Input exhausted before a closing quote. -/
  | unterminated (s : List Char) (line col : Nat)
  /-- `\` followed by end of input or an unrecognized escape character;
  carries the unconsumed remainder and the line/column at which
  `get_location` is taken. -/
  | badEscape (rest : List Char) (line col : Nat)
  deriving DecidableEq, Repr

/-- The loop of `Lexer::parse_string`, lexer.rs lines 203-224, on
`(rest, line, column)` with accumulator `acc` (`string` in the source). -/
def string_loop : List Char → Nat → Nat → List Char → StrScan
  | [], l, k, acc => .unterminated acc l k
  | c :: r, l, k, acc =>
      let l1 := if c = '\n' then l + 1 else l
      let k1 := if c = '\n' then 1 else k + 1
      if c = '\"' then .closed acc r l1 k1
      else if c = '\\' then
        match r with
        | [] => .badEscape [] l1 k1
        | e :: r2 =>
            let l2 := if e = '\n' then l1 + 1 else l1
            let k2 := if e = '\n' then 1 else k1 + 1
            match resolve_escape_sequence e with
            | none => .badEscape r2 l2 k2
            | some rc => string_loop r2 l2 k2 (acc ++ [rc])
      else string_loop r l1 k1 (acc ++ [c])

/-- `Lexer::parse_string`, lexer.rs lines 194-242: snapshots
`start_line`/`start_char`, skips the opening quote, runs the loop, and
builds the `String` token or the
`UnterminatedString`/`InvalidEscapeSequence` error. -/
def Lexer.parse_string (lx : Lexer) : Except LexerError Token × Lexer :=
  let startLine := lx.iter.curLine
  let startChar := lx.iter.curChar
  let it1 := (lx.iter.next).2
  match string_loop it1.rest it1.curLine it1.curChar [] with
  | .closed s rest l k =>
      (.ok { kind := .String, lexeme := s, line := startLine,
             startChar := startChar, endChar := k },
       { lx with iter := { lx.iter with rest := rest, curLine := l, curChar := k } })
  | .unterminated _s l k =>
      (.error (LexerError.from_indices "Unterminated string literal"
                 lx.iter.text startLine startChar k),
       { lx with iter := { lx.iter with rest := [], curLine := l, curChar := k } })
  | .badEscape rest l k =>
      (.error (LexerError.invalid_escape_sequence ⟨lx.iter.text, l, k, k⟩),
       { lx with iter := { lx.iter with
           rest := rest, curLine := l, curChar := k } })

/-- `Lexer::parse_char`, lexer.rs lines 146-188.  `none` models the panic
of `self._next().unwrap()` (line 153) when the input ends right after the
opening quote; otherwise the result and the mutated lexer are returned. -/
def Lexer.parse_char (lx : Lexer) :
    Option (Except LexerError Token × Lexer) :=
  let startChar := lx.iter.curChar
  let startLine := lx.iter.curLine
  let it1 := (lx.iter.next).2
  match it1.next with
  | (none, _) => none
  | (some c, it2) =>
      let decoded : Except (LexerError × StringIterator) (Char × StringIterator) :=
        if c = '\\' then
          match it2.next with
          | (none, it3) =>
              .error (LexerError.invalid_escape_sequence
                        ⟨lx.iter.text, it3.curLine, it3.curChar, it3.curChar⟩, it3)
          | (some e, it3) =>
              match resolve_escape_sequence e with
              | none =>
                  .error (LexerError.invalid_escape_sequence
                            ⟨lx.iter.text, it3.curLine, it3.curChar, it3.curChar⟩, it3)
              | some rc => .ok (rc, it3)
        else .ok (c, it2)
      match decoded with
      | .error (e, itErr) => some (.error e, { lx with iter := itErr })
      | .ok (rc, itK) =>
          match itK.next with
          | (none, itE) =>
              some (.error (LexerError.from_indices "Invalid char"
                              lx.iter.text startLine startChar itE.curChar),
                    { lx with iter := itE })
          | (some d, itE) =>
              if d = '\'' then
                some (.ok { kind := .Char, lexeme := [rc], line := itE.curLine,
                            startChar := startChar, endChar := itE.curChar },
                      { lx with iter := itE })
              else
                some (.error (LexerError.from_indices "Invalid char"
                                lx.iter.text startLine startChar itE.curChar),
                      { lx with iter := itE })

/-- The loop of `Lexer::parse_line_comment`, lexer.rs lines 248-255:
consume through the next `'\n'` or to end of input. -/
def lineLoop : List Char → Nat → Nat → List Char × Nat × Nat
  | [], l, k => ([], l, k)
  | c :: r, l, k =>
      if c = '\n' then (r, l + 1, 1)
      else lineLoop r l (k + 1)

/-- `Lexer::parse_line_comment`, lexer.rs lines 248-255; always `Ok(())`. -/
def Lexer.parse_line_comment (lx : Lexer) : Option LexerError × Lexer :=
  let t := lineLoop lx.iter.rest lx.iter.curLine lx.iter.curChar
  (none,
   { lx with iter := { lx.iter with rest := t.1, curLine := t.2.1, curChar := t.2.2 } })

/-- The loop of `Lexer::parse_block_comment`, lexer.rs lines 271-285, on
`(rest, line, column, depth)`.  `is_end_of_block_comment(c)` /
`is_start_of_block_comment(c)` are evaluated after `c` was consumed, so
their `offset(1)` inspects the character two positions past `c` — exactly
as in the source.  Returns `(closed, rest, line, column)`; `closed = false`
means the input ran out with the depth still positive. -/
def blockLoop : List Char → Nat → Nat → Nat → Bool × List Char × Nat × Nat
  | [], l, k, _depth => (false, [], l, k)
  | c :: r, l, k, depth =>
      let l1 := if c = '\n' then l + 1 else l
      let k1 := if c = '\n' then 1 else k + 1
      if c = '*' ∧ r.get? 1 = some '/' then
        match r with
        | [] =>
            -- unreachable: the guard forces `r.length ≥ 2`; `self._next()`
            -- would be a no-op here
            if depth - 1 = 0 then (true, [], l1, k1) else (false, [], l1, k1)
        | d :: r2 =>
            let l2 := if d = '\n' then l1 + 1 else l1
            let k2 := if d = '\n' then 1 else k1 + 1
            if depth - 1 = 0 then (true, r2, l2, k2)
            else blockLoop r2 l2 k2 (depth - 1)
      else if c = '/' ∧ r.get? 1 = some '*' then
        match r with
        | d :: e :: r3 =>
            let l2 := if d = '\n' then l1 + 1 else l1
            let k2 := if d = '\n' then 1 else k1 + 1
            let l3 := if e = '\n' then l2 + 1 else l2
            let k3 := if e = '\n' then 1 else k2 + 1
            blockLoop r3 l3 k3 (depth + 1)
        | [d] =>
            -- unreachable: the guard forces `r.length ≥ 2`
            (false, [], (if d = '\n' then l1 + 1 else l1),
             (if d = '\n' then 1 else k1 + 1))
        | [] => (false, [], l1, k1)
      else
        if depth = 0 then (true, r, l1, k1)
        else blockLoop r l1 k1 depth

/-- `Lexer::parse_block_comment`, lexer.rs lines 265-290: `self._skip(2)`
past the opener, then the depth-tracking loop starting at depth 1; if the
loop exhausts the input, `Err(UnterminatedBlockComment)` at the current
`get_location`. -/
def Lexer.parse_block_comment (lx : Lexer) : Option LexerError × Lexer :=
  let it1 := lx.iter.skipN 2
  match blockLoop it1.rest it1.curLine it1.curChar 1 with
  | (true, r, l, k) =>
      (none, { lx with iter := { lx.iter with rest := r, curLine := l, curChar := k } })
  | (false, r, l, k) =>
      (some (LexerError.from_location "Unterminated block comment"
               ⟨lx.iter.text, l, k, k⟩),
       { lx with iter := { lx.iter with rest := r, curLine := l, curChar := k } })

/-- `Lexer::parse_operator`, lexer.rs lines 292-439: consumes one
character unconditionally (`self._next()` — note this consumes whatever
is at the cursor, not necessarily `c`), then greedily extends using
`self._peek()` per the fixed chain of comparisons on `c`.  The method
mutates only `self.iter`, so it is embedded on the iterator. -/
def StringIterator.parse_operator (it : StringIterator) (c : Char) :
    Option TokenKind × StringIterator :=
  let lx1 := (it.next).2
  let peeked := lx1.peek
  let consume := (lx1.next).2
  if c = '!' then
    if peeked = some '=' then (some .BangEqual, consume) else (some .Bang, lx1)
  else if c = '%' then (some .Percent, lx1)
  else if c = '&' then
    if peeked = some '&' then (some .AmpersandAmpersand, consume)
    else (some .Ampersand, lx1)
  else if c = '(' then (some .LeftParenthesis, lx1)
  else if c = ')' then (some .RightParenthesis, lx1)
  else if c = '*' then
    if peeked = some '=' then (some .StarEqual, consume)
    else if peeked = some '*' then (some .StarStar, consume)
    else (some .Star, lx1)
  else if c = '+' then
    if peeked = some '+' then (some .PlusPlus, consume)
    else if peeked = some '=' then (some .PlusEqual, consume)
    else (some .Plus, lx1)
  else if c = ',' then (some .Comma, lx1)
  else if c = '-' then
    if peeked = some '-' then (some .MinusMinus, consume)
    else if peeked = some '=' then (some .MinusEqual, consume)
    else if peeked = some '>' then (some .FatArrow, consume)
    else (some .Minus, lx1)
  else if c = '.' then
    if peeked = some '.' then (some .DotDot, consume) else (some .Dot, lx1)
  else if c = '/' then
    if peeked = some '=' then (some .SlashEqual, consume) else (some .Slash, lx1)
  else if c = ':' then (some .Colon, lx1)
  else if c = ';' then (some .Semicolon, lx1)
  else if c = '<' then
    if peeked = some '=' then (some .LessEqual, consume) else (some .Less, lx1)
  else if c = '=' then
    if peeked = some '=' then (some .EqualEqual, consume)
    else if peeked = some '>' then (some .FatArrow, consume)
    else (some .Equal, lx1)
  else if c = '>' then
    if peeked = some '=' then (some .GreaterEqual, consume)
    else (some .Greater, lx1)
  else if c = '?' then
    if peeked = some '?' then (some .QuestionmarkQuestionmark, consume)
    else (some .Questionmark, lx1)
  else if c = '[' then (some .LeftBracket, lx1)
  else if c = ']' then (some .RightBracket, lx1)
  else if c = '{' then (some .LeftBrace, lx1)
  else if c = '|' then
    if peeked = some '|' then (some .PipePipe, consume) else (some .Pipe, lx1)
  else if c = '}' then (some .RightBrace, lx1)
  else (none, lx1)

/-- The value of one `Lexer::next_token` call
(`Option<Result<Token, LexerError>>`), plus the mutated lexer.
`rustNone` models Rust's `None` — the single value used both for "consumed
only a comment, call again" and for "end of input".  `panicked` models a
Rust panic (the `unwrap` in `parse_char`), which returns no value at all. -/
inductive NextTokenResult where
  | rustNone (lx : Lexer)
  | token (t : Token) (lx : Lexer)
  | error (e : LexerError) (lx : Lexer)
  | panicked
  deriving DecidableEq, Repr

/-- `Lexer::next_token`, lexer.rs lines 78-130.  Faithful details: the
dispatch character `c` is peeked *before* `skip_whitespace` (lines 83-93);
`parse_block_comment().err()?` and `parse_line_comment().err()?` drop any
error and the branch returns `None` either way (lines 95-103); the
operator token captures `line`/`start_char`/`end_char` all after the
operator was consumed (lines 123-129), with an empty lexeme. -/
def Lexer.next_token (lx : Lexer) : NextTokenResult :=
  if lx.state = .Done then .rustNone lx
  else
    match lx.iter.peek with
    | none => .rustNone { lx with state := .Done }
    | some c =>
        let lx1 : Lexer := { lx with state := .Lexing }
        let lx2 := lx1.skip_whitespace
        if lx2.is_start_of_block_comment c then
          .rustNone (lx2.parse_block_comment).2
        else if lx2.is_start_of_line_comment c then
          .rustNone (lx2.parse_line_comment).2
        else if lx2.is_start_of_string c then
          match lx2.parse_string with
          | (.ok t, lx3) => .token t lx3
          | (.error e, lx3) => .error e lx3
        else if lx2.is_start_of_char c then
          match lx2.parse_char with
          | none => .panicked
          | some (.ok t, lx3) => .token t lx3
          | some (.error e, lx3) => .error e lx3
        else
          match lx2.iter.parse_operator c with
          | (none, it3) =>
              .error (LexerError.from_location "Invalid operator"
                        (Lexer.get_location { lx2 with iter := it3 }))
                { lx2 with iter := it3 }
          | (some k, it3) =>
              .token { kind := k, lexeme := [], line := it3.curLine,
                       startChar := it3.curChar, endChar := it3.curChar }
                { lx2 with iter := it3 }

/-- The token of a `next_token` call, if any. -/
def NextTokenResult.tokenOf : NextTokenResult → Option Token
  | .token t _ => some t
  | _ => none

/-- The error message of a `next_token` call, if any. -/
def NextTokenResult.errorMsg : NextTokenResult → Option String
  | .error e _ => some e.msg
  | _ => none

/-- The mutated lexer surviving a `next_token` call (`none` after a
panic). -/
def NextTokenResult.lexerOf : NextTokenResult → Option Lexer
  | .rustNone lx => some lx
  | .token _ lx => some lx
  | .error _ lx => some lx
  | .panicked => none

/-- The Rust value `Option<Result<Token, LexerError>>` a `next_token`
call evaluates to, stripped of the mutated receiver; the outer `none`
models a panic (no value returned at all). -/
def NextTokenResult.rustValue :
    NextTokenResult → Option (Option (Except LexerError Token))
  | .rustNone _ => some none
  | .token t _ => some (some (.ok t))
  | .error e _ => some (some (.error e))
  | .panicked => none

/-- `TOKEN_KIND_MAP` from token.rs lines 172-238: the fixed
spelling-to-kind table (keywords and operator spellings). -/
def TOKEN_KIND_MAP : List (String × TokenKind) :=
  [("super", .Super), ("class", .Class), ("this", .This), ("while", .While),
   ("if", .If), ("else", .Else), ("for", .For), ("foreach", .Foreach),
   ("in", .In), ("continue", .Continue), ("break", .Break), ("true", .True),
   ("false", .False), ("null", .Null), ("import", .Import),
   ("include", .Include), ("as", .As), ("fn", .Fn), ("return", .Return),
   ("let", .Let), ("const", .Const), ("print", .Print),
   ("=>", .FatArrow), ("->", .ThinArrow), ("=", .Equal),
   ("??", .QuestionmarkQuestionmark), ("?", .Questionmark), (":", .Colon),
   ("+", .Plus), ("-", .Minus), ("/", .Slash), ("*", .Star),
   ("**", .StarStar), ("%", .Percent), ("&", .Ampersand),
   ("&&", .AmpersandAmpersand), ("^", .Caret), ("|", .Pipe),
   ("||", .PipePipe), ("!", .Bang), ("==", .EqualEqual), ("!=", .BangEqual),
   (">=", .GreaterEqual), ("<=", .LessEqual), (">", .Greater), ("<", .Less),
   ("<<", .LessLess), (">>", .GreaterGreater), ("~", .Tilde),
   ("++", .PlusPlus), ("--", .MinusMinus), ("-=", .MinusEqual),
   ("+=", .PlusEqual), ("*=", .StarEqual), ("/=", .SlashEqual),
   (".", .Dot), ("..", .DotDot), (",", .Comma), (";", .Semicolon),
   ("(", .LeftParenthesis), (")", .RightParenthesis), ("\x7b", .LeftBrace),
   ("\x7d", .RightBrace), ("[", .LeftBracket), ("]", .RightBracket)]

/-- Modelled from the spec: "an ASCII digit" (spec §4.2.5), as a
code-point test. -/
def isAsciiDigit (c : Char) : Bool :=
  48 ≤ c.toNat && c.toNat ≤ 57

/-- Modelled from the spec: "an ASCII letter" (spec §4.2.6), as a
code-point test. -/
def isAsciiLetter (c : Char) : Bool :=
  (65 ≤ c.toNat && c.toNat ≤ 90) || (97 ≤ c.toNat && c.toNat ≤ 122)

/-- Modelled from the spec: outcome of the number-scanning loop of
spec §4.2.5, which is missing from the source (lexer.rs line 113 is
`// TODO: parse number`). -/
inductive NumScan where
  /-- The scan ended (end of input): lexeme with separators stripped,
  whether a `.` was seen, remaining input, line, column. -/
  | finished (lexeme : List Char) (seenDot : Bool) (rest : List Char)
      (line col : Nat)
  /-- A second `.` was encountered (`InvalidFloat`). -/
  | invalidFloat (line col : Nat)
  /-- A character that is neither a digit, `_`, nor a first `.`
  (`InvalidNumberLiteral`). -/
  | invalidNumber (line col : Nat)
  deriving DecidableEq, Repr

/-- Modelled from the spec: the number-scanning loop of spec §4.2.5,
missing from the source (lexer.rs line 113).  "consumes digits and at most
one `.`; underscores (`_`) inside the digit run are accepted as no-op
separators and dropped from the lexeme; a second `.` yields
`InvalidFloat`; any other unexpected character yields
`InvalidNumberLiteral`." -/
def numLoop : List Char → Nat → Nat → List Char → Bool → NumScan
  | [], l, k, acc, seen => .finished acc seen [] l k
  | c :: r, l, k, acc, seen =>
      if isAsciiDigit c then numLoop r l (k + 1) (acc ++ [c]) seen
      else if c = '_' then numLoop r l (k + 1) acc seen
      else if c = '.' then
        if seen then .invalidFloat l k
        else numLoop r l (k + 1) (acc ++ ['.']) true
      else .invalidNumber l k

/-- Modelled from the spec: number scanning of spec §4.2.5, missing from
the source (lexer.rs line 113).  Classifies as `Float` if exactly one `.`
was seen, else `Integer`; the lexeme is the digit text with separators
stripped; `line`/`start_char` are captured before scanning and `end_char`
after (spec §4.2).  The sign-consumption step is omitted: spec §9 records
that it is bypassed by the operator dispatch in practice. -/
def Lexer.parse_number (lx : Lexer) : Except LexerError Token × Lexer :=
  let startLine := lx.iter.curLine
  let startChar := lx.iter.curChar
  match numLoop lx.iter.rest lx.iter.curLine lx.iter.curChar [] false with
  | .finished lexeme seen rest l k =>
      (.ok { kind := if seen then .Float else .Integer, lexeme := lexeme,
             line := startLine, startChar := startChar, endChar := k },
       { lx with iter := { lx.iter with rest := rest, curLine := l, curChar := k } })
  | .invalidFloat l k =>
      (.error (LexerError.from_indices "Invalid float" lx.iter.text
                 startLine startChar k),
       { lx with iter := { lx.iter with curLine := l, curChar := k } })
  | .invalidNumber l k =>
      (.error (LexerError.from_indices "Invalid number literal" lx.iter.text
                 startLine startChar k),
       { lx with iter := { lx.iter with curLine := l, curChar := k } })

/-- Modelled from the spec: an identifier start character of spec §4.2.6
("an ASCII letter, `_`, or `$`"); identifier scanning is missing from the
source (lexer.rs line 115 is `// TODO parse keyword`). -/
def isIdentStart (c : Char) : Bool :=
  isAsciiLetter c || c = '_' || c = '$'

/-- Modelled from the spec: an identifier continuation character of spec
§4.2.6 ("letter, `_`, `$`, or digit"). -/
def isIdentCont (c : Char) : Bool :=
  isAsciiLetter c || c = '_' || c = '$' || isAsciiDigit c

/-- Modelled from the spec: the identifier-consuming loop of spec §4.2.6,
missing from the source (lexer.rs line 115).  Consumes while characters
are identifier-continuation characters; returns the consumed text, the
remaining input and the column (identifier characters are never
newlines, so the line cannot change). -/
def identLoop : List Char → Nat → List Char → List Char × List Char × Nat
  | [], k, acc => (acc, [], k)
  | c :: r, k, acc =>
      if isIdentCont c then identLoop r (k + 1) (acc ++ [c])
      else (acc, c :: r, k)

/-- Modelled from the spec: identifier/keyword scanning of spec §4.2.6,
missing from the source (lexer.rs line 115).  Looks the consumed text up
in the fixed keyword table (`TOKEN_KIND_MAP`, token.rs lines 172-238) and
returns the matching keyword kind if found, else `Identifier`; the lexeme
is always the raw text; `line`/`start_char` are captured before scanning
and `end_char` after (spec §4.2). -/
def Lexer.parse_identifier (lx : Lexer) : Token × Lexer :=
  let startLine := lx.iter.curLine
  let startChar := lx.iter.curChar
  let t := identLoop lx.iter.rest lx.iter.curChar []
  let kind := (TOKEN_KIND_MAP.lookup (String.mk t.1)).getD .Identifier
  ({ kind := kind, lexeme := t.1, line := startLine, startChar := startChar,
     endChar := t.2.2 },
   { lx with iter := { lx.iter with rest := t.2.1, curChar := t.2.2 } })

/-- Modelled from the spec: `next_token` with the two `TODO` dispatch
branches of lexer.rs lines 113-115 filled in per spec §4.2.5-6 — a number
branch when the dispatched character is an ASCII digit and an identifier
branch when it is an identifier start character, placed between the
char-literal branch and the operator branch.  All other code is identical
to `Lexer.next_token`. -/
def Lexer.next_token_full (lx : Lexer) : NextTokenResult :=
  if lx.state = .Done then .rustNone lx
  else
    match lx.iter.peek with
    | none => .rustNone { lx with state := .Done }
    | some c =>
        let lx1 : Lexer := { lx with state := .Lexing }
        let lx2 := lx1.skip_whitespace
        if lx2.is_start_of_block_comment c then
          .rustNone (lx2.parse_block_comment).2
        else if lx2.is_start_of_line_comment c then
          .rustNone (lx2.parse_line_comment).2
        else if lx2.is_start_of_string c then
          match lx2.parse_string with
          | (.ok t, lx3) => .token t lx3
          | (.error e, lx3) => .error e lx3
        else if lx2.is_start_of_char c then
          match lx2.parse_char with
          | none => .panicked
          | some (.ok t, lx3) => .token t lx3
          | some (.error e, lx3) => .error e lx3
        else if isAsciiDigit c then
          match lx2.parse_number with
          | (.ok t, lx3) => .token t lx3
          | (.error e, lx3) => .error e lx3
        else if isIdentStart c then
          let t := lx2.parse_identifier
          .token t.1 t.2
        else
          match lx2.iter.parse_operator c with
          | (none, it3) =>
              .error (LexerError.from_location "Invalid operator"
                        (Lexer.get_location { lx2 with iter := it3 }))
                { lx2 with iter := it3 }
          | (some k, it3) =>
              .token { kind := k, lexeme := [], line := it3.curLine,
                       startChar := it3.curChar, endChar := it3.curChar }
                { lx2 with iter := it3 }

/-- The spec's decoding relation for the body of a string literal
(spec §4.2.3 and the escape table of §4.2): raw characters other than the
delimiter and the backslash decode to themselves, and a backslash followed
by a recognized escape character decodes to the resolved character.
`Decodes body s` states that the raw text `body` decodes to `s`. -/
inductive Decodes : List Char → List Char → Prop where
  | nil : Decodes [] []
  | raw (c : Char) (h1 : c ≠ '\"') (h2 : c ≠ '\\') {r d : List Char} :
      Decodes r d → Decodes (c :: r) (c :: d)
  | esc (e rc : Char) (h : resolve_escape_sequence e = some rc) {r d : List Char} :
      Decodes r d → Decodes ('\\' :: e :: r) (rc :: d)

/-- The line/column advance over a list of consumed code units, following
the cursor discipline of spec §4.1 (a newline increments the line and
resets the column to 1; any other code unit increments the column). -/
def advance : List Char → Nat → Nat → Nat × Nat
  | [], l, k => (l, k)
  | c :: r, l, k =>
      advance r (if c = '\n' then l + 1 else l) (if c = '\n' then 1 else k + 1)

/-! ## Lemmas -/

theorem Decodes.append {a da b db : List Char} (h1 : Decodes a da)
    (h2 : Decodes b db) : Decodes (a ++ b) (da ++ db) := by
  induction h1 with
  | nil => simpa using h2
  | raw c hc1 hc2 _ ih => exact .raw c hc1 hc2 ih
  | esc e rc he _ ih => exact .esc e rc he ih

/-- A recognized escape character is never a newline (the escape table of
util.rs maps no newline). -/
theorem resolve_ne_newline {e rc : Char}
    (h : resolve_escape_sequence e = some rc) : e ≠ '\n' := by
  intro he
  subst he
  simp [resolve_escape_sequence] at h

/-- The string-scanning loop consumes a decodable body as a unit: it
appends the decoded characters to the accumulator, advances the position
over the raw characters, and continues with the rest of the input. -/
theorem string_loop_append {content d : List Char} (h : Decodes content d) :
    ∀ (suffix : List Char) (l k : Nat) (acc : List Char),
    string_loop (content ++ suffix) l k acc =
      string_loop suffix (advance content l k).1 (advance content l k).2
        (acc ++ d) := by
  induction h with
  | nil =>
      intro suffix l k acc
      simp [advance]
  | raw c h1 h2 _ ih =>
      intro suffix l k acc
      rw [List.cons_append]
      rw [string_loop.eq_def]
      simp only [h1, h2]
      simp only [if_false]
      rw [ih]
      simp [advance, List.append_assoc]
  | esc e rc he _ ih =>
      intro suffix l k acc
      rw [List.cons_append, List.cons_append]
      rw [string_loop.eq_def]
      have hne : e ≠ '\n' := resolve_ne_newline he
      simp only [he]
      simp [hne, advance, List.append_assoc]
      rw [ih]
      simp [advance, hne, List.append_assoc]

/-- Dispatch on an input whose first character is the opening quote:
`next_token` reaches `parse_string` with the state set to `Lexing` and the
cursor untouched. -/
theorem next_token_quote (r : List Char) :
    (Lexer.new ('\"' :: r)).next_token =
      match (⟨⟨'\"' :: r, '\"' :: r, 1, 1⟩, .Lexing⟩ : Lexer).parse_string with
      | (.ok t, lx3) => .token t lx3
      | (.error e, lx3) => .error e lx3 := by
  unfold Lexer.next_token
  simp [Lexer.new, StringIterator.new, StringIterator.peek, Lexer.skip_whitespace,
        skipWsRest, rustIsWhitespace, Lexer.is_start_of_block_comment,
        Lexer.is_start_of_line_comment, Lexer.is_start_of_string,
        Lexer.is_start_of_char]

/-- Scanning a well-formed string literal `"body"tail` from a fresh lexer:
one `String` token whose lexeme is the decoded body, whose line is the
opening quote's line, whose span starts at the opening quote's column and
ends just past the closing quote. -/
theorem string_token_of_decodes {content d : List Char} (h : Decodes content d)
    (tail : List Char) :
    ((Lexer.new ('\"' :: (content ++ '\"' :: tail))).next_token).tokenOf =
      some { kind := .String, lexeme := d, line := 1, startChar := 1,
             endChar := (advance content 1 2).2 + 1 } := by
  rw [next_token_quote]
  unfold Lexer.parse_string
  simp only [StringIterator.next]
  rw [string_loop_append h]
  rw [string_loop.eq_def]
  simp [NextTokenResult.tokenOf]

/-- A backslash followed by an unrecognized escape character inside a
string literal yields the `InvalidEscapeSequence` error. -/
theorem string_bad_escape_of_decodes {content d : List Char}
    (h : Decodes content d) {e : Char}
    (he : resolve_escape_sequence e = none) (tail : List Char) :
    ((Lexer.new ('\"' :: (content ++ '\\' :: e :: tail))).next_token).errorMsg =
      some "Invalid escape sequence" := by
  rw [next_token_quote]
  unfold Lexer.parse_string
  simp only [StringIterator.next]
  rw [string_loop_append h]
  rw [string_loop.eq_def]
  simp [he, LexerError.invalid_escape_sequence, NextTokenResult.errorMsg]

/-- A backslash at the very end of the input inside a string literal
yields the `InvalidEscapeSequence` error. -/
theorem string_mid_escape_of_decodes {content d : List Char}
    (h : Decodes content d) :
    ((Lexer.new ('\"' :: (content ++ ['\\']))).next_token).errorMsg =
      some "Invalid escape sequence" := by
  rw [next_token_quote]
  unfold Lexer.parse_string
  simp only [StringIterator.next]
  rw [string_loop_append h]
  rw [string_loop.eq_def]
  simp [LexerError.invalid_escape_sequence, NextTokenResult.errorMsg]

/-- Characters agreeing on no classifier value are distinct. -/
theorem ne_of_asciiDigit {c x : Char} (h : isAsciiDigit c = true)
    (hx : isAsciiDigit x = false) : c ≠ x := by
  intro he
  rw [he, hx] at h
  cases h

/-- Identifier-start characters are distinct from any character that is
not one. -/
theorem ne_of_identStart {c x : Char} (h : isIdentStart c = true)
    (hx : isIdentStart x = false) : c ≠ x := by
  intro he
  rw [he, hx] at h
  cases h

/-- An ASCII digit is not whitespace. -/
theorem asciiDigit_not_ws {c : Char} (h : isAsciiDigit c = true) :
    rustIsWhitespace c = false := by
  have h1 : c ≠ ' ' := ne_of_asciiDigit h (by decide)
  have h2 : c ≠ '\t' := ne_of_asciiDigit h (by decide)
  have h3 : c ≠ '\n' := ne_of_asciiDigit h (by decide)
  have h4 : c ≠ '\x0B' := ne_of_asciiDigit h (by decide)
  have h5 : c ≠ '\x0C' := ne_of_asciiDigit h (by decide)
  have h6 : c ≠ '\r' := ne_of_asciiDigit h (by decide)
  have h7 : c ≠ '\x85' := ne_of_asciiDigit h (by decide)
  have h8 : c ≠ '\xA0' := ne_of_asciiDigit h (by decide)
  simp [rustIsWhitespace, h1, h2, h3, h4, h5, h6, h7, h8]

/-- An identifier-start character is not whitespace. -/
theorem identStart_not_ws {c : Char} (h : isIdentStart c = true) :
    rustIsWhitespace c = false := by
  have h1 : c ≠ ' ' := ne_of_identStart h (by decide)
  have h2 : c ≠ '\t' := ne_of_identStart h (by decide)
  have h3 : c ≠ '\n' := ne_of_identStart h (by decide)
  have h4 : c ≠ '\x0B' := ne_of_identStart h (by decide)
  have h5 : c ≠ '\x0C' := ne_of_identStart h (by decide)
  have h6 : c ≠ '\r' := ne_of_identStart h (by decide)
  have h7 : c ≠ '\x85' := ne_of_identStart h (by decide)
  have h8 : c ≠ '\xA0' := ne_of_identStart h (by decide)
  simp [rustIsWhitespace, h1, h2, h3, h4, h5, h6, h7, h8]

/-- An identifier-start character is not an ASCII digit. -/
theorem identStart_not_digit {c : Char} (h : isIdentStart c = true) :
    isAsciiDigit c = false := by
  simp only [isIdentStart, isAsciiLetter, Bool.or_eq_true, Bool.and_eq_true,
    decide_eq_true_eq] at h
  simp only [isAsciiDigit, Bool.and_eq_false_iff, decide_eq_false_iff_not]
  rcases h with ((⟨h1, h2⟩ | ⟨h1, h2⟩) | h1) | h1
  · right; omega
  · right; omega
  · subst h1; right; decide
  · subst h1; left; decide

/-- End of input before any closing quote yields the `UnterminatedString`
error. -/
theorem string_unterminated_of_decodes {content d : List Char}
    (h : Decodes content d) :
    ((Lexer.new ('\"' :: content)).next_token).errorMsg =
      some "Unterminated string literal" := by
  rw [next_token_quote]
  unfold Lexer.parse_string
  simp only [StringIterator.next]
  have h2 := string_loop_append h []
    (if ('\"' : Char) = '\n' then 1 + 1 else 1)
    (if ('\"' : Char) = '\n' then 1 else 1 + 1) []
  simp only [List.append_nil] at h2
  rw [h2]
  rw [string_loop.eq_def]
  simp [LexerError.from_indices, NextTokenResult.errorMsg]


/-- The number-scanning loop consumes a run of digits and separators as a
unit: digits are appended, separators dropped, the column advanced by the
raw length. -/
theorem numLoop_run {pre : List Char}
    (hpre : ∀ c ∈ pre, isAsciiDigit c = true ∨ c = '_') :
    ∀ (suffix : List Char) (l k : Nat) (acc : List Char) (seen : Bool),
    numLoop (pre ++ suffix) l k acc seen =
      numLoop suffix l (k + pre.length)
        (acc ++ pre.filter (fun d => d != '_')) seen := by
  induction pre with
  | nil =>
      intro suffix l k acc seen
      simp
  | cons c r ih =>
      intro suffix l k acc seen
      have hr : ∀ x ∈ r, isAsciiDigit x = true ∨ x = '_' := by
        intro x hx
        exact hpre x (by simp [hx])
      rcases hpre c (by simp) with hd | hu
      · have hne : (c != '_') = true := by
          have := ne_of_asciiDigit hd (show isAsciiDigit '_' = false by decide)
          simp [this]
        rw [List.cons_append]
        rw [numLoop.eq_def]
        simp only [hd, if_true]
        rw [ih hr]
        have hlen : k + 1 + r.length = k + (r.length + 1) := by omega
        simp [List.filter_cons, hne, hlen]
      · subst hu
        rw [List.cons_append]
        rw [numLoop.eq_def]
        simp only [show isAsciiDigit '_' = false by decide, Bool.false_eq_true,
          if_false]
        simp only [if_true]
        rw [ih hr]
        have hlen : k + 1 + r.length = k + (r.length + 1) := by omega
        simp [List.filter_cons, hlen]

/-- The number-scanning loop at end of input: the scan finishes. -/
theorem numLoop_digits {cs : List Char}
    (hcs : ∀ c ∈ cs, isAsciiDigit c = true ∨ c = '_')
    (l k : Nat) (acc : List Char) (seen : Bool) :
    numLoop cs l k acc seen =
      .finished (acc ++ cs.filter (fun d => d != '_')) seen [] l
        (k + cs.length) := by
  have h := numLoop_run hcs [] l k acc seen
  simp only [List.append_nil] at h
  rw [h]
  rw [numLoop.eq_def]

/-- A first dot continues the number scan with the dot recorded. -/
theorem numLoop_dot_first (post : List Char) (l k : Nat) (acc : List Char) :
    numLoop ('.' :: post) l k acc false =
      numLoop post l (k + 1) (acc ++ ['.']) true := by
  rw [numLoop.eq_def]
  simp [show isAsciiDigit '.' = false by decide]

/-- A second dot aborts the number scan with `InvalidFloat`. -/
theorem numLoop_dot_seen (post : List Char) (l k : Nat) (acc : List Char) :
    numLoop ('.' :: post) l k acc true = .invalidFloat l k := by
  rw [numLoop.eq_def]
  simp [show isAsciiDigit '.' = false by decide]

/-- The identifier loop consumes a run of continuation characters as a
unit. -/
theorem identLoop_run {pre : List Char}
    (hpre : ∀ c ∈ pre, isIdentCont c = true) :
    ∀ (suffix : List Char) (k : Nat) (acc : List Char),
    identLoop (pre ++ suffix) k acc =
      identLoop suffix (k + pre.length) (acc ++ pre) := by
  induction pre with
  | nil =>
      intro suffix k acc
      simp
  | cons c r ih =>
      intro suffix k acc
      have hr : ∀ x ∈ r, isIdentCont x = true := by
        intro x hx
        exact hpre x (by simp [hx])
      rw [List.cons_append]
      rw [identLoop.eq_def]
      simp only [hpre c (by simp), if_true]
      rw [ih hr]
      have hlen : k + 1 + r.length = k + (r.length + 1) := by omega
      simp [hlen]

/-- Dispatch on an input whose first character is an ASCII digit:
`next_token_full` reaches the spec-modelled `parse_number` with the state
set to `Lexing` and the cursor untouched. -/
theorem next_token_full_digit {c : Char} (hd : isAsciiDigit c = true)
    (r : List Char) :
    (Lexer.new (c :: r)).next_token_full =
      (match (⟨⟨c :: r, c :: r, 1, 1⟩, .Lexing⟩ : Lexer).parse_number with
       | (.ok t, lx3) => .token t lx3
       | (.error e, lx3) => .error e lx3) := by
  have hws := asciiDigit_not_ws hd
  have h1 : c ≠ '/' := ne_of_asciiDigit hd (by decide)
  have h2 : c ≠ '\"' := ne_of_asciiDigit hd (by decide)
  have h3 : c ≠ '\'' := ne_of_asciiDigit hd (by decide)
  unfold Lexer.next_token_full
  simp [Lexer.new, StringIterator.new, StringIterator.peek, Lexer.skip_whitespace,
        skipWsRest, hws, Lexer.is_start_of_block_comment,
        Lexer.is_start_of_line_comment, Lexer.is_start_of_string,
        Lexer.is_start_of_char, h1, h2, h3, hd]

/-- Dispatch on an input whose first character is an identifier start:
`next_token_full` reaches the spec-modelled `parse_identifier`. -/
theorem next_token_full_identifier {c : Char} (hs : isIdentStart c = true)
    (r : List Char) :
    (Lexer.new (c :: r)).next_token_full =
      .token ((⟨⟨c :: r, c :: r, 1, 1⟩, .Lexing⟩ : Lexer).parse_identifier).1
        ((⟨⟨c :: r, c :: r, 1, 1⟩, .Lexing⟩ : Lexer).parse_identifier).2 := by
  have hws := identStart_not_ws hs
  have hd := identStart_not_digit hs
  have h1 : c ≠ '/' := ne_of_identStart hs (by decide)
  have h2 : c ≠ '\"' := ne_of_identStart hs (by decide)
  have h3 : c ≠ '\'' := ne_of_identStart hs (by decide)
  unfold Lexer.next_token_full
  simp [Lexer.new, StringIterator.new, StringIterator.peek, Lexer.skip_whitespace,
        skipWsRest, hws, Lexer.is_start_of_block_comment,
        Lexer.is_start_of_line_comment, Lexer.is_start_of_string,
        Lexer.is_start_of_char, h1, h2, h3, hd, hs]


/-- An identifier-start character is also an identifier-continuation
character. -/
theorem identCont_of_identStart {c : Char} (h : isIdentStart c = true) :
    isIdentCont c = true := by
  simp only [isIdentStart, Bool.or_eq_true] at h
  simp only [isIdentCont, Bool.or_eq_true]
  rcases h with (ha | hb) | hc
  · exact Or.inl (Or.inl (Or.inl ha))
  · exact Or.inl (Or.inl (Or.inr hb))
  · exact Or.inl (Or.inr hc)

/-! ## Claims -/

/-- C1: for input beginning with an ASCII digit, `next_token` (with the
spec-modelled number branch) scans a number literal: digits with at most
one `.` are consumed, `_` separators are dropped from the lexeme, and the
call yields an `Integer` token (no `.` seen) or a `Float` token (exactly
one `.` seen) whose lexeme is the digit text with separators stripped; a
second `.` yields an `InvalidFloat` error. -/
theorem C1_number_literal_scanning :
    (∀ c cs, isAsciiDigit c = true →
      (∀ d ∈ cs, isAsciiDigit d = true ∨ d = '_') →
      ((Lexer.new (c :: cs)).next_token_full).tokenOf =
        some { kind := .Integer,
               lexeme := (c :: cs).filter (fun d => d != '_'),
               line := 1, startChar := 1, endChar := cs.length + 2 }) ∧
    (∀ c pre post, isAsciiDigit c = true →
      (∀ d ∈ pre, isAsciiDigit d = true ∨ d = '_') →
      (∀ d ∈ post, isAsciiDigit d = true ∨ d = '_') →
      ((Lexer.new (c :: (pre ++ '.' :: post))).next_token_full).tokenOf =
        some { kind := .Float,
               lexeme := (c :: (pre ++ '.' :: post)).filter (fun d => d != '_'),
               line := 1, startChar := 1,
               endChar := pre.length + post.length + 3 }) ∧
    (∀ c pre mid post, isAsciiDigit c = true →
      (∀ d ∈ pre, isAsciiDigit d = true ∨ d = '_') →
      (∀ d ∈ mid, isAsciiDigit d = true ∨ d = '_') →
      ((Lexer.new (c :: (pre ++ '.' :: (mid ++ '.' :: post)))).next_token_full).errorMsg =
        some "Invalid float") := by
  refine ⟨?_, ?_, ?_⟩
  · intro c cs hc hcs
    have hund : isAsciiDigit '_' = false := by decide
    have hne : (c != '_') = true := by
      simp [ne_of_asciiDigit hc hund]
    rw [next_token_full_digit hc]
    unfold Lexer.parse_number
    rw [numLoop.eq_def]
    simp only [hc, if_true]
    rw [numLoop_digits hcs]
    simp [NextTokenResult.tokenOf, List.filter_cons, hne]
    omega
  · intro c pre post hc hpre hpost
    have hund : isAsciiDigit '_' = false := by decide
    have hne : (c != '_') = true := by
      simp [ne_of_asciiDigit hc hund]
    rw [next_token_full_digit hc]
    unfold Lexer.parse_number
    rw [numLoop.eq_def]
    simp only [hc, if_true]
    rw [numLoop_run hpre]
    rw [numLoop_dot_first]
    rw [numLoop_digits hpost]
    simp [NextTokenResult.tokenOf, List.filter_cons, List.filter_append, hne]
    omega
  · intro c pre mid post hc hpre hmid
    rw [next_token_full_digit hc]
    unfold Lexer.parse_number
    rw [numLoop.eq_def]
    simp only [hc, if_true]
    rw [numLoop_run hpre]
    rw [numLoop_dot_first]
    rw [numLoop_run hmid]
    rw [numLoop_dot_seen]
    simp [NextTokenResult.errorMsg, LexerError.from_indices]

/-- C2: for input beginning with an identifier-start character (ASCII
letter, `_`, or `$`), `next_token` (with the spec-modelled identifier
branch) consumes the maximal run of identifier-continuation characters,
looks the text up in the fixed keyword table, and yields the matching
keyword kind if found, else `Identifier`; the lexeme is the raw consumed
text. -/
theorem C2_identifier_keyword_scanning :
    ∀ c cs rest, isIdentStart c = true →
      (∀ d ∈ cs, isIdentCont d = true) →
      (∀ d, rest.head? = some d → isIdentCont d = false) →
      ((Lexer.new (c :: (cs ++ rest))).next_token_full).tokenOf =
        some { kind := (TOKEN_KIND_MAP.lookup (String.mk (c :: cs))).getD .Identifier,
               lexeme := c :: cs, line := 1, startChar := 1,
               endChar := cs.length + 2 } := by
  intro c cs rest hs hcs hrest
  rw [next_token_full_identifier hs]
  unfold Lexer.parse_identifier
  rw [identLoop.eq_def]
  simp only [identCont_of_identStart hs, if_true]
  rw [identLoop_run hcs]
  cases rest with
  | nil =>
      rw [identLoop.eq_def]
      simp [NextTokenResult.tokenOf]
      omega
  | cons d r2 =>
      rw [identLoop.eq_def]
      simp only [hrest d rfl, Bool.false_eq_true, if_false]
      simp [NextTokenResult.tokenOf]
      omega


/-- The rank of a tokenizer state in the `Ready → Lexing → Done` order. -/
def stateRank : LexerState → Nat
  | .Ready => 0
  | .Lexing => 1
  | .Done => 2

theorem skip_whitespace_state (lx : Lexer) :
    (lx.skip_whitespace).state = lx.state := rfl

theorem parse_block_comment_state (lx : Lexer) :
    ((lx.parse_block_comment).2).state = lx.state := by
  simp only [Lexer.parse_block_comment]
  split <;> rfl

theorem parse_line_comment_state (lx : Lexer) :
    ((lx.parse_line_comment).2).state = lx.state := rfl

theorem parse_string_state (lx : Lexer) :
    ((lx.parse_string).2).state = lx.state := by
  simp only [Lexer.parse_string]
  split <;> rfl

theorem parse_char_state (lx : Lexer) {res : Except LexerError Token}
    {lx' : Lexer} (h : lx.parse_char = some (res, lx')) :
    lx'.state = lx.state := by
  simp only [Lexer.parse_char] at h
  repeat' split at h
  all_goals simp_all
  all_goals rw [← h.2]


/-- C9: the tokenizer state progresses monotonically through
`Ready → Lexing → Done` with no cycles and no reset: a `next_token` call
never decreases the state rank, and once the state is `Done` every call
returns the end-of-input signal with the lexer unchanged (so the state
remains `Done`). -/
theorem C9_state_machine_monotonic :
    ∀ lx : Lexer,
      (lx.state = .Done → lx.next_token = .rustNone lx) ∧
      (∀ lx', (lx.next_token).lexerOf = some lx' →
        stateRank lx.state ≤ stateRank lx'.state) := by
  intro lx
  have hDone : lx.state = .Done → lx.next_token = .rustNone lx := by
    intro h
    unfold Lexer.next_token
    simp [h]
  refine ⟨hDone, ?_⟩
  intro lx' h
  by_cases hd : lx.state = .Done
  · rw [hDone hd] at h
    simp only [NextTokenResult.lexerOf, Option.some.injEq] at h
    rw [← h]
  · have hrank : stateRank lx.state ≤ 1 := by
      cases hs : lx.state
      · exact Nat.zero_le 1
      · exact Nat.le_refl 1
      · exact absurd hs hd
    unfold Lexer.next_token at h
    rw [if_neg hd] at h
    cases hp : lx.iter.peek with
    | none =>
        rw [hp] at h
        simp only [NextTokenResult.lexerOf, Option.some.injEq] at h
        rw [← h]
        have : stateRank ({ lx with state := LexerState.Done } : Lexer).state = 2 := rfl
        rw [this]
        cases hs : lx.state <;> decide
    | some c =>
        rw [hp] at h
        simp only [] at h
        set lx2 := ({ lx with state := LexerState.Lexing } : Lexer).skip_whitespace
          with hlx2
        have h2 : lx2.state = .Lexing := by
          rw [hlx2, skip_whitespace_state]
        have hgoal : ∀ lxr : Lexer, lxr.state = .Lexing → lx' = lxr →
            stateRank lx.state ≤ stateRank lx'.state := by
          intro lxr hr he
          rw [he, hr]
          exact hrank
        by_cases hb : lx2.is_start_of_block_comment c = true
        · rw [if_pos hb] at h
          simp only [NextTokenResult.lexerOf, Option.some.injEq] at h
          exact hgoal _ (by rw [parse_block_comment_state, h2]) h.symm
        · rw [if_neg hb] at h
          by_cases hl : lx2.is_start_of_line_comment c = true
          · rw [if_pos hl] at h
            simp only [NextTokenResult.lexerOf, Option.some.injEq] at h
            exact hgoal _ (by rw [parse_line_comment_state, h2]) h.symm
          · rw [if_neg hl] at h
            by_cases hstr : lx2.is_start_of_string c = true
            · rw [if_pos hstr] at h
              rcases hps : lx2.parse_string with ⟨res, lx3⟩
              rw [hps] at h
              have h3 : lx3.state = .Lexing := by
                have := parse_string_state lx2
                rw [hps] at this
                rw [this, h2]
              cases res with
              | ok t =>
                  simp only [NextTokenResult.lexerOf, Option.some.injEq] at h
                  exact hgoal _ h3 h.symm
              | error e =>
                  simp only [NextTokenResult.lexerOf, Option.some.injEq] at h
                  exact hgoal _ h3 h.symm
            · rw [if_neg hstr] at h
              by_cases hch : lx2.is_start_of_char c = true
              · rw [if_pos hch] at h
                cases hpc : lx2.parse_char with
                | none =>
                    rw [hpc] at h
                    simp [NextTokenResult.lexerOf] at h
                | some p =>
                    rcases p with ⟨res, lx3⟩
                    rw [hpc] at h
                    have h3 : lx3.state = .Lexing := by
                      rw [parse_char_state lx2 hpc, h2]
                    cases res with
                    | ok t =>
                        simp only [NextTokenResult.lexerOf, Option.some.injEq] at h
                        exact hgoal _ h3 h.symm
                    | error e =>
                        simp only [NextTokenResult.lexerOf, Option.some.injEq] at h
                        exact hgoal _ h3 h.symm
              · rw [if_neg hch] at h
                rcases hpo : lx2.iter.parse_operator c with ⟨opt, it3⟩
                rw [hpo] at h
                cases opt with
                | none =>
                    simp only [NextTokenResult.lexerOf, Option.some.injEq] at h
                    exact hgoal _ (by simp [h2]) h.symm
                | some k =>
                    simp only [NextTokenResult.lexerOf, Option.some.injEq] at h
                    exact hgoal _ (by simp [h2]) h.symm


/-- Advancing over newline-free code units moves the column by the raw
length and leaves the line unchanged. -/
theorem advance_no_newline :
    ∀ (content : List Char) (l k : Nat), '\n' ∉ content →
      advance content l k = (l, k + content.length) := by
  intro content
  induction content with
  | nil =>
      intro l k _
      simp [advance]
  | cons c r ih =>
      intro l k h
      have hc : ¬(c = '\n') := by
        intro he
        exact h (by simp [he])
      have hr : '\n' ∉ r := fun hm => h (List.mem_cons_of_mem _ hm)
      simp only [advance]
      rw [if_neg hc, if_neg hc]
      rw [ih _ _ hr]
      have : k + 1 + r.length = k + (r.length + 1) := by omega
      simp [this]

/-- C3: the claim says whitespace/comment-only input yields no tokens and
no errors; the code instead dispatches on the character peeked *before*
`skip_whitespace` (lexer.rs lines 83-93), so the whitespace-only input
`" "` reaches `parse_operator(' ')` and `next_token` returns the
`InvalidOperator` error — evaluating the code at the failing input. -/
theorem C3_whitespace_only_input_errors :
    (Lexer.new [' ']).next_token =
      .error { msg := "Invalid operator",
               location := some { text := [' '], line := 1, startChar := 2,
                                  endChar := 2 } }
        { iter := { text := [' '], rest := [], curChar := 2, curLine := 1 },
          state := .Lexing } := by decide

/-- C4: the claim says an unterminated block comment returns the
`UnterminatedBlockComment` error to the caller; `parse_block_comment`
does produce that error on input `"/*"`, but the
`self.parse_block_comment().err()?` line (lexer.rs line 96) drops it and
`next_token` returns `None` — evaluating the code at the failing input. -/
theorem C4_block_comment_error_swallowed :
    ((⟨⟨['/', '*'], ['/', '*'], 1, 1⟩, .Lexing⟩ : Lexer).parse_block_comment).1 =
      some (LexerError.from_location "Unterminated block comment"
              ⟨['/', '*'], 1, 3, 3⟩) ∧
    ((Lexer.new ['/', '*']).next_token).rustValue = some none := by decide

/-- C5 counterexample: the claim says the comment-consuming outcome and
the end-of-input outcome are distinct signals; on the comment-only input
`"// x"` and on the empty input the call returns the *same* Rust value
`None`, even though the first consumed a comment (state `Lexing`) and the
second hit end of input (state `Done`). -/
theorem C5_counterexample_same_signal :
    ((Lexer.new ("// x".toList)).next_token).rustValue =
      ((Lexer.new ([] : List Char)).next_token).rustValue ∧
    ((Lexer.new ("// x".toList)).next_token).rustValue = some none ∧
    (((Lexer.new ("// x".toList)).next_token).lexerOf).map Lexer.state =
      some .Lexing ∧
    (((Lexer.new ([] : List Char)).next_token).lexerOf).map Lexer.state =
      some .Done := by decide

/-- C5 amended: a `next_token` call that consumed only a comment and a
call at end of input both return the same value `None`; they are not
distinguishable by the returned value, only by the tokenizer's internal
state (`Lexing` after a comment, `Done` at end of input). -/
theorem C5_amended_signals_collapsed :
    (∀ rest : List Char,
      ((Lexer.new ('/' :: '/' :: rest)).next_token).rustValue = some none ∧
      (((Lexer.new ('/' :: '/' :: rest)).next_token).lexerOf).map Lexer.state =
        some .Lexing) ∧
    (∀ lx : Lexer, lx.iter.rest = [] → lx.state ≠ .Done →
      lx.next_token = .rustNone { lx with state := .Done }) := by
  constructor
  · intro rest
    unfold Lexer.next_token
    simp [Lexer.new, StringIterator.new, StringIterator.peek,
          Lexer.skip_whitespace, skipWsRest, rustIsWhitespace,
          Lexer.is_start_of_block_comment, Lexer.is_start_of_line_comment,
          StringIterator.offset, NextTokenResult.rustValue,
          NextTokenResult.lexerOf, parse_line_comment_state]
  · intro lx h1 h2
    unfold Lexer.next_token
    rw [if_neg h2]
    simp [StringIterator.peek, h1]

/-- C6: the claim says `next_token` never panics; on the input consisting
of a single quote the `self._next().unwrap()` of `parse_char`
(lexer.rs line 153) unwraps `None` and the call panics — evaluating the
code at the failing input. -/
theorem C6_single_quote_panics :
    (Lexer.new ['\'']).next_token = .panicked := by decide

/-- C7 counterexample: the claim says that for the input `"+"` the token's
`start_char` is the column at which the operator stood (column 1); the
code captures `start_char` after `parse_operator` consumed the character
(lexer.rs lines 123-129), so the token records `start_char = 2`. -/
theorem C7_counterexample_plus_start_char :
    ((Lexer.new ['+']).next_token).tokenOf =
      some { kind := .Plus, lexeme := [], line := 1, startChar := 2,
             endChar := 2 } := by decide

/-- The characters that alone form an operator/punctuation token. -/
def singleOpChars : List Char :=
  ['!', '%', '&', '(', ')', '*', '+', ',', '-', '.', '/', ':', ';', '<',
   '=', '>', '?', '[', ']', '{', '|', '}']

/-- C7 amended: string and char tokens capture `start_char` at the opening
delimiter's column (before consuming it), and `end_char` after scanning;
operator/punctuation tokens instead capture `line`/`start_char`/`end_char`
all *after* the operator was consumed, so for a single-operator input the
token's `start_char` is the column after the operator (2), equal to
`end_char`. -/
theorem C7_amended_position_capture :
    (∀ c ∈ singleOpChars,
      ((Lexer.new [c]).next_token).tokenOf.map
          (fun t => (t.line, t.startChar, t.endChar)) =
        some (1, 2, 2)) ∧
    ((Lexer.new ('\"' :: 'a' :: '\"' :: [])).next_token).tokenOf.map
        (fun t => (t.line, t.startChar, t.endChar)) = some (1, 1, 4) ∧
    ((Lexer.new ('\'' :: 'a' :: '\'' :: [])).next_token).tokenOf.map
        (fun t => (t.line, t.startChar, t.endChar)) = some (1, 1, 4) := by
  decide

/-- C8: for input starting with `"`, string scanning consumes until an
unescaped closing quote; on success it yields one `String` token whose
lexeme is the decoded text (escapes resolved per the fixed table) and
whose span runs from the opening quote's column to the position after the
closing quote (for a newline-free body, `start + length + 2`); a
backslash followed by an unlisted character or by end of input yields
`InvalidEscapeSequence`, and end of input before a closing quote yields
`UnterminatedString`. -/
theorem C8_string_literal_scanning :
    (∀ content d tail, Decodes content d →
      ((Lexer.new ('\"' :: (content ++ '\"' :: tail))).next_token).tokenOf =
        some { kind := .String, lexeme := d, line := 1, startChar := 1,
               endChar := (advance content 1 2).2 + 1 }) ∧
    (∀ content : List Char, '\n' ∉ content →
      (advance content 1 2).2 + 1 = content.length + 3) ∧
    (∀ content d e tail, Decodes content d →
      resolve_escape_sequence e = none →
      ((Lexer.new ('\"' :: (content ++ '\\' :: e :: tail))).next_token).errorMsg =
        some "Invalid escape sequence") ∧
    (∀ content d, Decodes content d →
      ((Lexer.new ('\"' :: (content ++ ['\\']))).next_token).errorMsg =
        some "Invalid escape sequence") ∧
    (∀ content d, Decodes content d →
      ((Lexer.new ('\"' :: content)).next_token).errorMsg =
        some "Unterminated string literal") := by
  refine ⟨?_, ?_, ?_, ?_, ?_⟩
  · intro content d tail h
    exact string_token_of_decodes h tail
  · intro content h
    rw [advance_no_newline content 1 2 h]
    omega
  · intro content d e tail h he
    exact string_bad_escape_of_decodes h he tail
  · intro content d h
    exact string_mid_escape_of_decodes h
  · intro content d h
    exact string_unterminated_of_decodes h

/-- C10: a raw newline between the quotes of a string literal neither
terminates the literal nor causes an error: the call yields one `String`
token whose lexeme contains that newline and whose `line` field is the
line of the opening quote. -/
theorem C10_raw_newline_in_string :
    ∀ pre dpre post dpost tail, Decodes pre dpre → Decodes post dpost →
      ((Lexer.new
          ('\"' :: ((pre ++ '\n' :: post) ++ '\"' :: tail))).next_token).tokenOf.map
          (fun t => (t.lexeme, t.line)) =
        some (dpre ++ '\n' :: dpost, 1) ∧
      '\n' ∈ dpre ++ '\n' :: dpost := by
  intro pre dpre post dpost tail h1 h2
  have hdec : Decodes (pre ++ '\n' :: post) (dpre ++ '\n' :: dpost) :=
    Decodes.append h1 (Decodes.raw '\n' (by decide) (by decide) h2)
  constructor
  · rw [string_token_of_decodes hdec tail]
    simp
  · simp


/-! ## Witnesses -/

/-- Witness for C1 at the spec's own examples: `12_3`, `1.5`, `1.2.3`. -/
theorem C1_number_literal_scanning_witness :
    ((Lexer.new ['1', '2', '_', '3']).next_token_full).tokenOf =
      some { kind := .Integer, lexeme := ['1', '2', '3'], line := 1,
             startChar := 1, endChar := 5 } ∧
    ((Lexer.new ['1', '.', '5']).next_token_full).tokenOf =
      some { kind := .Float, lexeme := ['1', '.', '5'], line := 1,
             startChar := 1, endChar := 4 } ∧
    ((Lexer.new ['1', '.', '2', '.', '3']).next_token_full).errorMsg =
      some "Invalid float" :=
  ⟨C1_number_literal_scanning.1 '1' ['2', '_', '3'] (by decide) (by decide),
   C1_number_literal_scanning.2.1 '1' [] ['5'] (by decide) (by decide)
     (by decide),
   C1_number_literal_scanning.2.2 '1' [] ['2'] ['3'] (by decide) (by decide)
     (by decide)⟩

/-- Witness for C2 at the keyword `class` scanned to end of input. -/
theorem C2_identifier_keyword_scanning_witness :
    ((Lexer.new ['c', 'l', 'a', 's', 's']).next_token_full).tokenOf =
      some { kind := .Class, lexeme := ['c', 'l', 'a', 's', 's'], line := 1,
             startChar := 1, endChar := 6 } :=
  C2_identifier_keyword_scanning 'c' ['l', 'a', 's', 's'] [] (by decide)
    (by decide) (by simp)

/-- Witness for C5 (amended) at the line comment `"// x"` and the empty
input. -/
theorem C5_amended_signals_collapsed_witness :
    ((Lexer.new ('/' :: '/' :: (' ' :: 'x' :: []))).next_token).rustValue =
      some none ∧
    (Lexer.new []).next_token = .rustNone { Lexer.new [] with state := .Done } :=
  ⟨(C5_amended_signals_collapsed.1 [' ', 'x']).1,
   C5_amended_signals_collapsed.2 (Lexer.new []) rfl (by decide)⟩

/-- Witness for C7 (amended) at the single-operator input `"+"`. -/
theorem C7_amended_position_capture_witness :
    ((Lexer.new ['+']).next_token).tokenOf.map
        (fun t => (t.line, t.startChar, t.endChar)) = some (1, 2, 2) :=
  C7_amended_position_capture.1 '+' (by decide)

/-- Witness for C8 at `"a\nb"` (escape decoded), `"a\q` (bad escape) and
`"ab` (unterminated). -/
theorem C8_string_literal_scanning_witness :
    ((Lexer.new ('\"' :: 'a' :: '\\' :: 'n' :: 'b' :: '\"' :: [])).next_token).tokenOf =
      some { kind := .String, lexeme := ['a', '\n', 'b'], line := 1,
             startChar := 1, endChar := 7 } ∧
    ((Lexer.new ('\"' :: 'a' :: '\\' :: 'q' :: [])).next_token).errorMsg =
      some "Invalid escape sequence" ∧
    ((Lexer.new ('\"' :: 'a' :: 'b' :: [])).next_token).errorMsg =
      some "Unterminated string literal" :=
  ⟨C8_string_literal_scanning.1 ['a', '\\', 'n', 'b'] ['a', '\n', 'b'] []
     (Decodes.raw 'a' (by decide) (by decide)
       (Decodes.esc 'n' '\n' (by decide)
         (Decodes.raw 'b' (by decide) (by decide) Decodes.nil))),
   C8_string_literal_scanning.2.2.1 ['a'] ['a'] 'q' []
     (Decodes.raw 'a' (by decide) (by decide) Decodes.nil) (by decide),
   C8_string_literal_scanning.2.2.2.2 ['a', 'b'] ['a', 'b']
     (Decodes.raw 'a' (by decide) (by decide)
       (Decodes.raw 'b' (by decide) (by decide) Decodes.nil))⟩

/-- Witness for C9: a finished tokenizer stays `Done` and yields the end
signal; a fresh pull on `"+"` raises the rank from `Ready` to `Lexing`. -/
theorem C9_state_machine_monotonic_witness :
    (⟨⟨[], [], 1, 1⟩, .Done⟩ : Lexer).next_token =
      .rustNone ⟨⟨[], [], 1, 1⟩, .Done⟩ ∧
    stateRank (Lexer.new ['+']).state ≤
      stateRank (⟨⟨['+'], [], 2, 1⟩, .Lexing⟩ : Lexer).state :=
  ⟨(C9_state_machine_monotonic ⟨⟨[], [], 1, 1⟩, .Done⟩).1 rfl,
   (C9_state_machine_monotonic (Lexer.new ['+'])).2
     ⟨⟨['+'], [], 2, 1⟩, .Lexing⟩ (by decide)⟩

/-- Witness for C10 at `"a` newline `b"`. -/
theorem C10_raw_newline_in_string_witness :
    ((Lexer.new ('\"' :: 'a' :: '\n' :: 'b' :: '\"' :: [])).next_token).tokenOf.map
        (fun t => (t.lexeme, t.line)) = some (['a', '\n', 'b'], 1) ∧
    '\n' ∈ ['a', '\n', 'b'] :=
  C10_raw_newline_in_string ['a'] ['a'] ['b'] ['b'] []
    (Decodes.raw 'a' (by decide) (by decide) Decodes.nil)
    (Decodes.raw 'b' (by decide) (by decide) Decodes.nil)

end Lang3
